import Mathlib

/-!
Verification development for the gluapack unpacker (src/src/unpack.rs).

The byte-level decoders are embedded as pure functions over lists of
natural numbers standing for bytes.  Reads from an in-memory byte source
are total: BufRead::read_until never fails on such a source and signals
end of source by returning the bytes seen so far, while Read::read_exact
signals an UnexpectedEof error when fewer bytes remain than requested.
Filesystem write failures (File::create, create_dir_all, the write half
of io::copy) are environmental and are not modelled; the list of decoded
entries (path bytes, payload bytes) produced on the success path stands
for the files written.  The lossy UTF-8 decoding of entry paths
(String::from_utf8_lossy) is total and never fails, so decoded entries
keep their raw path bytes.  Capacity hints (MAX_LUA_SIZE,
MEM_PREALLOCATE_MAX) only affect preallocation and are omitted.
-/

/-- Embeds BufRead::read_until(delim): returns the bytes read up to and
including the first occurrence of the delimiter (or the whole input when
the delimiter is absent, mirroring end of source) together with the
remaining input. -/
def readUntil (d : Nat) : List Nat → List Nat × List Nat
  | [] => ([], [])
  | b :: r =>
    if b = d then ([b], r)
    else (b :: (readUntil d r).1, (readUntil d r).2)

/-- Embeds u32::from_le_bytes on a 4-byte buffer (unpack.rs line 193). -/
def leU32 : List Nat → Nat
  | [a, b, c, d] => a + 256 * (b + 256 * (c + 256 * d))
  | _ => 0

/-- State of the UTF-8 validation automaton: how many continuation
bytes are still expected, and the allowed range for the next byte when
one is expected. -/
structure Utf8State where
  need : Nat
  lo : Nat
  hi : Nat
deriving DecidableEq

/-- Start state of the UTF-8 validation automaton. -/
def utf8Start : Utf8State := ⟨0, 0, 0⟩

/-- One step of the UTF-8 validation automaton, encoding the lead-byte
classes of RFC 3629 as used by std::str::from_utf8: C2 to DF take one
continuation byte; E0 (A0 to BF), E1 to EC, ED (80 to 9F, excluding
surrogates), EE to EF take two; F0 (90 to BF), F1 to F3, F4 (80 to 8F,
capping at U+10FFFF) take three; later continuation bytes are 80 to
BF. -/
def utf8Next (st : Utf8State) (b : Nat) : Option Utf8State :=
  if st.need = 0 then
    if b ≤ 127 then some ⟨0, 0, 0⟩
    else if b < 194 then none
    else if b ≤ 223 then some ⟨1, 128, 191⟩
    else if b = 224 then some ⟨2, 160, 191⟩
    else if b ≤ 236 then some ⟨2, 128, 191⟩
    else if b = 237 then some ⟨2, 128, 159⟩
    else if b ≤ 239 then some ⟨2, 128, 191⟩
    else if b = 240 then some ⟨3, 144, 191⟩
    else if b ≤ 243 then some ⟨3, 128, 191⟩
    else if b = 244 then some ⟨3, 128, 143⟩
    else none
  else
    if st.lo ≤ b ∧ b ≤ st.hi then some ⟨st.need - 1, 128, 191⟩
    else none

/-- Runs the UTF-8 validation automaton; a trailing incomplete sequence
is invalid. -/
def utf8ValidFrom (st : Utf8State) : List Nat → Bool
  | [] => st.need = 0
  | b :: rest =>
    match utf8Next st b with
    | some st2 => utf8ValidFrom st2 rest
    | none => false

/-- Embeds the UTF-8 validity check performed by std::str::from_utf8 and
by BufRead::read_line. -/
def utf8Valid (l : List Nat) : Bool := utf8ValidFrom utf8Start l

/-- Value of one ASCII hexadecimal digit byte, as accepted by
u32::from_str_radix(_, 16); any other byte is rejected. -/
def hexDigitVal (b : Nat) : Option Nat :=
  if 48 ≤ b ∧ b ≤ 57 then some (b - 48)
  else if 97 ≤ b ∧ b ≤ 102 then some (b - 87)
  else if 65 ≤ b ∧ b ≤ 70 then some (b - 55)
  else none

/-- Digit-accumulation loop of u32::from_str_radix(_, 16): fails on the
first non-hexadecimal byte. -/
def hexAccum : Nat → List Nat → Option Nat
  | acc, [] => some acc
  | acc, b :: r =>
    match hexDigitVal b with
    | some d => hexAccum (16 * acc + d) r
    | none => none

/-- Numeric value denoted by a list of hexadecimal digit bytes. -/
def hexNat (bs : List Nat) : Nat :=
  bs.foldl (fun a b => 16 * a + (hexDigitVal b).getD 0) 0

/-- Embeds u32::from_str_radix(s, 16): an optional leading ASCII plus
sign (byte 43) followed by at least one hexadecimal digit; the per-digit
checked arithmetic of the standard library fails exactly when the
denoted value does not fit in 32 bits, which is modelled by the final
bound check. -/
def fromStrRadix16u32 (bs : List Nat) : Option Nat :=
  match bs with
  | [] => none
  | b :: rest =>
    if b = 43 ∧ rest = [] then none
    else
      (hexAccum 0 (if b = 43 then rest else b :: rest)).bind
        fun v => if v < 2 ^ 32 then some v else none

/-- Relevant std::io::ErrorKind values: UnexpectedEof arises from
Read::read_exact hitting end of source, InvalidData from
BufRead::read_line meeting bytes that are not valid UTF-8. -/
inductive IoErrorKind
  | unexpectedEof
  | invalidData
deriving DecidableEq

/-- Embeds the UnpackingError enum of unpack.rs (lines 288 to 310). -/
inductive UnpackingError
  | ioError (kind : IoErrorKind)
  | utf8Error
  | parseIntError
deriving DecidableEq

/-- Result type standing for Result<A, UnpackingError>. -/
inductive Res (α : Type)
  | ok (a : α)
  | err (e : UnpackingError)
deriving DecidableEq

/-- Embeds the length-field decode step of the chunked read_entry
(unpack.rs line 256): from_utf8 first (Utf8Error on failure), then
from_str_radix base 16 (ParseIntError on failure). -/
def parseLenField (bs : List Nat) : Res Nat :=
  if utf8Valid bs then
    match fromStrRadix16u32 bs with
    | some v => .ok v
    | none => .err .parseIntError
  else .err .utf8Error

/-- Outcome of one read_entry call of the legacy decoder: the sentinel
return Ok(true), the UnexpectedEof error from read_exact, or a decoded
entry Ok(false). -/
inductive SvStep
  | sentinel
  | eofBreak
  | entry (path payload rest : List Nat)
deriving DecidableEq

/-- Embeds read_entry of parse_sv_packed_file (unpack.rs lines 183 to
205): read_until(0) for the path, sentinel when nothing was read,
read_exact of the 4-byte little-endian length (UnexpectedEof when fewer
than 4 bytes remain), then io::copy of take(len) bytes, which copies
whatever is available without error.  The recorded entry path drops the
final byte of the path read, as the slice path[0..path.len()-1] does. -/
def svReadEntry (s : List Nat) : SvStep :=
  if (readUntil 0 s).1 = [] then .sentinel
  else if (readUntil 0 s).2.length < 4 then .eofBreak
  else
    .entry (readUntil 0 s).1.dropLast
      (((readUntil 0 s).2.drop 4).take (leU32 ((readUntil 0 s).2.take 4)))
      (((readUntil 0 s).2.drop 4).drop (leU32 ((readUntil 0 s).2.take 4)))

/-- Embeds the entry loop of parse_sv_packed_file (unpack.rs lines 206
to 216): Ok(true) breaks, Ok(false) counts an entry, and an error breaks
when its kind is UnexpectedEof (any other error would be environmental
and is outside this byte-level model).  The fuel argument only bounds
the recursion; the wrapper always supplies enough. -/
def parseSvLoop : Nat → List Nat → Nat × List (List Nat × List Nat)
  | 0, _ => (0, [])
  | fuel + 1, s =>
    match svReadEntry s with
    | .sentinel => (0, [])
    | .eofBreak => (0, [])
    | .entry p pay rest =>
      ((parseSvLoop fuel rest).1 + 1, (p, pay) :: (parseSvLoop fuel rest).2)

/-- Embeds parse_sv_packed_file (unpack.rs lines 177 to 219) on the byte
content of the legacy packed file: returns the entry count and the
decoded (path bytes, payload bytes) pairs. -/
def parseSvPackedFile (s : List Nat) : Nat × List (List Nat × List Nat) :=
  parseSvLoop (s.length + 1) s

/-- Modelled from the spec: the designated terminator byte value
TERMINATOR_HACK is defined in the crate root, which is outside the
provided sources; the spec fixes only that it is one fixed byte value
used as both the path and length delimiter of the chunked format.  The
chunked definitions below take the terminator as a parameter, and this
constant instantiates them for concrete evaluations; no claim depends on
the specific value. -/
def TERMINATOR_HACK : Nat := 1

/-- Outcome of one read_entry call of the chunked decoder: the sentinel,
a Rust panic (the slice len[0..len.len()-1] is out of bounds when the
length read returned no bytes), a propagated UnpackingError, or a
decoded entry. -/
inductive CStep
  | sentinel
  | panicked
  | fail (e : UnpackingError)
  | entry (path payload rest : List Nat)
deriving DecidableEq

/-- Embeds read_entry of parse_packed_files (unpack.rs lines 245 to
268): read_until(TERMINATOR_HACK) for the path, sentinel when nothing
was read, read_until(TERMINATOR_HACK) for the length field, then the
slice len[0..len.len()-1] (which panics when that read yielded nothing),
from_utf8 and from_str_radix(_, 16) on it, and io::copy of take(len)
bytes.  The entry path drops the final byte of the path read and keeps
its raw bytes (from_utf8_lossy is total). -/
def chunkReadEntry (term : Nat) (s : List Nat) : CStep :=
  if (readUntil term s).1 = [] then .sentinel
  else
    if (readUntil term (readUntil term s).2).1 = [] then .panicked
    else
      match parseLenField (readUntil term (readUntil term s).2).1.dropLast with
      | .err e => .fail e
      | .ok len =>
        .entry (readUntil term s).1.dropLast
          ((readUntil term (readUntil term s).2).2.take len)
          ((readUntil term (readUntil term s).2).2.drop len)

/-- Outcome of a chunked-decoder run: a panic, a propagated error, or
the entry count with the decoded entries. -/
inductive CResult
  | panicked
  | fail (e : UnpackingError)
  | ok (n : Nat) (entries : List (List Nat × List Nat))
deriving DecidableEq

/-- Embeds the entry loop of parse_packed_files (unpack.rs lines 271 to
282): Ok(true) breaks, Ok(false) counts an entry, an IoError of kind
UnexpectedEof breaks, and any other error is propagated; a panic in
read_entry aborts everything. -/
def parsePackedLoop : Nat → Nat → List Nat → CResult
  | 0, _, _ => .ok 0 []
  | fuel + 1, term, s =>
    match chunkReadEntry term s with
    | .sentinel => .ok 0 []
    | .panicked => .panicked
    | .fail (.ioError .unexpectedEof) => .ok 0 []
    | .fail e => .fail e
    | .entry p pay rest =>
      match parsePackedLoop fuel term rest with
      | .ok n es => .ok (n + 1) ((p, pay) :: es)
      | r => r

/-- Chunked entry parsing over a fully assembled superchunk buffer
(the Cursor loop of unpack.rs lines 270 to 282). -/
def parsePackedBufferT (term : Nat) (s : List Nat) : CResult :=
  parsePackedLoop (s.length + 1) term s

/-- Embeds read_commented_file (unpack.rs lines 226 to 238) on the byte
content of one chunk file: repeatedly seek 2 bytes forward (skipping the
2-byte comment marker without inspecting it), read_line (which fails
with an InvalidData I/O error when the bytes read are not valid UTF-8),
stop when the read returns no bytes, otherwise append the line bytes
including their terminator. -/
def readCommentedLoop : Nat → List Nat → Res (List Nat)
  | 0, _ => .ok []
  | fuel + 1, s =>
    if utf8Valid (readUntil 10 (s.drop 2)).1 then
      if (readUntil 10 (s.drop 2)).1 = [] then .ok []
      else
        match readCommentedLoop fuel (readUntil 10 (s.drop 2)).2 with
        | .ok b => .ok ((readUntil 10 (s.drop 2)).1 ++ b)
        | .err e => .err e
    else .err (.ioError .invalidData)

/-- De-commented payload of one chunk file (wrapper supplying fuel). -/
def readCommentedFile (s : List Nat) : Res (List Nat) :=
  readCommentedLoop (s.length + 1) s

/-- Embeds the superchunk assembly loop (unpack.rs lines 240 to 243):
de-comment every chunk file in input order and concatenate, propagating
the first error. -/
def superchunkOf : List (List Nat) → Res (List Nat)
  | [] => .ok []
  | f :: fs =>
    match readCommentedFile f with
    | .err e => .err e
    | .ok b =>
      match superchunkOf fs with
      | .ok rest => .ok (b ++ rest)
      | .err e => .err e

/-- Embeds parse_packed_files (unpack.rs lines 221 to 285) on the byte
contents of the chunk files of one logical stream. -/
def parsePackedFiles (term : Nat) (files : List (List Nat)) : CResult :=
  match superchunkOf files with
  | .err e => .fail e
  | .ok sc => parsePackedBufferT term sc

/-- Byte content of one chunk-file line: a marker prefix followed by a
payload fragment and the line-feed terminator. -/
def renderLine (ln : List Nat × List Nat) : List Nat :=
  ln.1 ++ (ln.2 ++ [10])

/-- Byte content of a chunk file assembled from a list of lines. -/
def renderFile : List (List Nat × List Nat) → List Nat
  | [] => []
  | ln :: rest => renderLine ln ++ renderFile rest

/-- Concatenation of the payload fragments (each with its line-feed
terminator) of one chunk file, in line order. -/
def fragsOf : List (List Nat × List Nat) → List Nat
  | [] => []
  | ln :: rest => (ln.2 ++ [10]) ++ fragsOf rest

/-- Concatenation of all payload fragments across a list of chunk files,
in input-list order then line order. -/
def allFrags : List (List (List Nat × List Nat)) → List Nat
  | [] => []
  | f :: fs => fragsOf f ++ allFrags fs

/-- Well-formedness of one (marker, fragment) line: the marker is
exactly 2 bytes, the fragment body holds no interior line feed, and the
fragment together with its terminating line feed is valid UTF-8 (the
condition read_line imposes). -/
def goodLine (ln : List Nat × List Nat) : Prop :=
  ln.1.length = 2 ∧ (10 : Nat) ∉ ln.2 ∧ utf8Valid (ln.2 ++ [10]) = true

instance (ln : List Nat × List Nat) : Decidable (goodLine ln) := by
  unfold goodLine
  infer_instance

/-- Outcome of a whole unpack run. -/
inductive UnpackOutcome
  | panicked
  | fail (e : UnpackingError)
  | ok (unpacked packed : Nat)
deriving DecidableEq

/-- Embeds the decode-and-count phase of Unpacker::unpack (unpack.rs
lines 70 to 87) over the discovered inputs: total_packed_files starts at
the number of client-side plus shared chunk files, the legacy file adds
one and is decoded first, then the two chunked streams are decoded, and
the reported container count is total_packed_files + 2. -/
def unpackModel (term : Nat) (sv : Option (List Nat)) (cl sh : List (List Nat)) :
    UnpackOutcome :=
  match parsePackedFiles term cl with
  | .panicked => .panicked
  | .fail e => .fail e
  | .ok nCl _ =>
    match parsePackedFiles term sh with
    | .panicked => .panicked
    | .fail e => .fail e
    | .ok nSh _ =>
      .ok ((match sv with
            | some content => (parseSvPackedFile content).1
            | none => 0) + nCl + nSh)
        ((cl.length + sh.length + (match sv with | some _ => 1 | none => 0)) + 2)

/-- One token of a glob component: a literal run of characters or a
single star, which matches any (possibly empty) character sequence
within one path component, as in the glob crate. -/
inductive GlobTok
  | lit (cs : List Char)
  | star
deriving DecidableEq

/-- Strips a literal character run from the front of a component,
returning the remainder on success. -/
def stripLit : List Char → List Char → Option (List Char)
  | [], cs => some cs
  | _ :: _, [] => none
  | a :: l, c :: cs => if a = c then stripLit l cs else none

/-- Fuelled glob-component matcher; the star case tries every split
point.  The wrapper always supplies sufficient fuel. -/
def matchToksF : Nat → List GlobTok → List Char → Bool
  | 0, _, _ => false
  | _ + 1, [], cs => cs.isEmpty
  | fuel + 1, .lit l :: ts, cs =>
    match stripLit l cs with
    | some rest => matchToksF fuel ts rest
    | none => false
  | fuel + 1, .star :: ts, [] => matchToksF fuel ts []
  | fuel + 1, .star :: ts, c :: cs =>
    matchToksF fuel ts (c :: cs) || matchToksF fuel (.star :: ts) cs

/-- Matches one glob component pattern against one path component. -/
def matchToks (ts : List GlobTok) (cs : List Char) : Bool :=
  matchToksF (ts.length + cs.length + 1) ts cs

/-- Matches a component-wise glob pattern against a path given as its
list of components (the glob crate requires equal component counts when
no recursive wildcard is used). -/
def matchPathPat : List (List GlobTok) → List String → Bool
  | [], [] => true
  | [], _ :: _ => false
  | _ :: _, [] => false
  | pp :: pps, s :: ss => matchToks pp s.toList && matchPathPat pps ss

/-- Component pattern holding a single literal. -/
def litPat (s : String) : List GlobTok := [.lit s.toList]

/-- Component pattern for *.lua file names. -/
def luaSuffixPat : List GlobTok := [.star, .lit ".lua".toList]

/-- Component pattern for loader-style *_gluapack_*.lua file names. -/
def loaderNamePat : List GlobTok :=
  [.star, .lit "_gluapack_".toList, .star, .lit ".lua".toList]

/-- No-copy chunk discovery glob lua/gluapack/STAR/STAR.lua of unpack.rs
line 46, relative to the addon directory. -/
def noCopyChunkPat : List (List GlobTok) :=
  [litPat "lua", litPat "gluapack", [GlobTok.star], luaSuffixPat]

/-- No-copy legacy-file discovery glob of unpack.rs line 56, relative to
the addon directory: lua/gluapack/autorun/ followed by a loader-style
file name. -/
def noCopySvPat : List (List GlobTok) :=
  [litPat "lua", litPat "gluapack", litPat "autorun", loaderNamePat]

/-- Final component of a path, as entry.file_name() yields. -/
def fileNameOf : List String → String
  | [] => ""
  | [x] => x
  | _ :: y :: rest => fileNameOf (y :: rest)

/-- Embeds str::ends_with on file names. -/
def endsWithStr (suf s : String) : Bool :=
  (stripLit suf.toList.reverse s.toList.reverse).isSome

/-- Embeds the no-copy discovery block of Unpacker::unpack (unpack.rs
lines 41 to 59) over the set of files of the addon tree, listed in glob
iteration order: chunk-glob matches are classified by the .sh.lua and
.cl.lua name suffixes, and the legacy packed file is the first match of
the separate lua/gluapack/autorun/ loader-style glob. -/
def noCopyDiscover (tree : List (List String)) :
    Option (List String) × List (List String) × List (List String) :=
  (tree.find? (fun p => matchPathPat noCopySvPat p),
   (tree.filter (fun p => matchPathPat noCopyChunkPat p)).filter
     (fun p => !endsWithStr ".sh.lua" (fileNameOf p) &&
       endsWithStr ".cl.lua" (fileNameOf p)),
   (tree.filter (fun p => matchPathPat noCopyChunkPat p)).filter
     (fun p => endsWithStr ".sh.lua" (fileNameOf p)))

/-- Copy-mode loader glob autorun/STAR_gluapack_STAR.lua (unpack.rs line
6), relative to the lua folder. -/
def loaderPat : List (List GlobTok) := [litPat "autorun", loaderNamePat]

/-- Copy-mode chunk glob gluapack/STAR/STAR.lua (unpack.rs line 7),
relative to the lua folder. -/
def chunkFilePat : List (List GlobTok) :=
  [litPat "gluapack", [GlobTok.star], luaSuffixPat]

/-- Accumulator of the copy-mode walk: the three collected buckets plus
a flag recording whether every debug_assert so far held. -/
structure CopyAcc where
  sv : Option (List String)
  cl : List (List String)
  sh : List (List String)
  assertOk : Bool
deriving DecidableEq

/-- Initial accumulator of one copy pass. -/
def initCopyAcc : CopyAcc := ⟨none, [], [], true⟩

/-- Embeds the per-file classification of copy_addon (unpack.rs lines
115 to 135) for a file whose path is given relative to the lua folder:
loader matches are skipped, chunk-glob matches named gluapack.sv.lua are
recorded as the legacy packed file after checking the debug_assert that
the bucket was still empty, and the .sh.lua and .cl.lua suffixes fill
the two chunk lists. -/
def classifyLuaFile (acc : CopyAcc) (rel : List String) : CopyAcc :=
  if matchPathPat loaderPat rel then acc
  else if matchPathPat chunkFilePat rel then
    if fileNameOf rel = "gluapack.sv.lua" then
      { acc with assertOk := acc.assertOk && acc.sv.isNone, sv := some rel }
    else if endsWithStr ".sh.lua" (fileNameOf rel) then
      { acc with sh := acc.sh ++ [rel] }
    else if endsWithStr ".cl.lua" (fileNameOf rel) then
      { acc with cl := acc.cl ++ [rel] }
    else acc
  else acc

/-- Classification state after a copy pass that visited the given files
(paths relative to the lua folder, in walk order). -/
def classifyLuaFiles (files : List (List String)) : CopyAcc :=
  files.foldl classifyLuaFile initCopyAcc

/-- A file that reaches the legacy-file recording branch of copy_addon:
not a loader match, a chunk-glob match, and named gluapack.sv.lua. -/
def isSvCandidate (rel : List String) : Bool :=
  !matchPathPat loaderPat rel && matchPathPat chunkFilePat rel &&
    decide (fileNameOf rel = "gluapack.sv.lua")

/-- One directory entry seen by the copy-mode walk: whether it is a
symlink, its own path, and (for symlinks) the read_link target. -/
structure FsEntry where
  isSymlink : Bool
  path : List String
  linkTarget : List String
deriving DecidableEq

/-- Embeds the symlink-visitation logic of copy_addon (unpack.rs lines
97 to 110) over a sequence of directory entries: a symlink whose own
path was already inserted into the visitation set is skipped, a fresh
symlink has its path inserted and its read_link target becomes the
visited entry, and a non-symlink is visited at its own path.  Returns
the final visitation set, the visited entry paths in order, and the
paths of the symlinks that were followed. -/
def visitEntries : List (List String) → List FsEntry →
    List (List String) × List (List String) × List (List String)
  | visited, [] => (visited, [], [])
  | visited, e :: es =>
    if e.isSymlink then
      if e.path ∈ visited then visitEntries visited es
      else
        ((visitEntries (e.path :: visited) es).1,
         e.linkTarget :: (visitEntries (e.path :: visited) es).2.1,
         e.path :: (visitEntries (e.path :: visited) es).2.2)
    else
      ((visitEntries visited es).1,
       e.path :: (visitEntries visited es).2.1,
       (visitEntries visited es).2.2)

/-! Helper lemmas about the byte-stream primitives. -/

theorem readUntil_append (d : Nat) (s : List Nat) :
    (readUntil d s).1 ++ (readUntil d s).2 = s := by
  induction s with
  | nil => rfl
  | cons b r ih =>
    by_cases h : b = d
    · simp [readUntil, h]
    · simp [readUntil, h, ih]

theorem readUntil_fst_nil_iff (d : Nat) (s : List Nat) :
    (readUntil d s).1 = [] ↔ s = [] := by
  cases s with
  | nil => simp [readUntil]
  | cons b r =>
    by_cases h : b = d
    · simp [readUntil, h]
    · simp [readUntil, h]

theorem readUntil_no_delim_append (d : Nat) {l : List Nat} (r : List Nat) (h : d ∉ l) :
    readUntil d (l ++ d :: r) = (l ++ [d], r) := by
  induction l with
  | nil => simp [readUntil]
  | cons a l ih =>
    have ha : ¬ a = d := fun he => h (he ▸ List.mem_cons_self a l)
    have hd : d ∉ l := fun hm => h (List.mem_cons_of_mem a hm)
    simp [readUntil, ha, ih hd]

theorem readUntil_no_delim (d : Nat) {l : List Nat} (h : d ∉ l) :
    readUntil d l = (l, []) := by
  induction l with
  | nil => rfl
  | cons a l ih =>
    have ha : ¬ a = d := fun he => h (he ▸ List.mem_cons_self a l)
    have hd : d ∉ l := fun hm => h (List.mem_cons_of_mem a hm)
    simp [readUntil, ha, ih hd]

theorem readUntil_snd_length_lt (d : Nat) (s : List Nat) (h : s ≠ []) :
    (readUntil d s).2.length < s.length := by
  have h2 : (readUntil d s).1 ≠ [] := by
    rw [ne_eq, readUntil_fst_nil_iff]; exact h
  have h3 : 0 < (readUntil d s).1.length := List.length_pos.mpr h2
  have h4 : (readUntil d s).1.length + (readUntil d s).2.length = s.length := by
    rw [← List.length_append, readUntil_append]
  omega

/-! Helper lemmas about UTF-8 validity and hexadecimal parsing. -/

theorem utf8Valid_cons_of_ascii (b : Nat) (rest : List Nat) (hb : b ≤ 127) :
    utf8Valid (b :: rest) = utf8Valid rest := by
  simp [utf8Valid, utf8ValidFrom, utf8Next, utf8Start, hb]

theorem utf8Valid_of_ascii : ∀ (l : List Nat), (∀ b ∈ l, b ≤ 127) → utf8Valid l = true
  | [], _ => rfl
  | b :: rest, h => by
    rw [utf8Valid_cons_of_ascii b rest (h b (List.mem_cons_self b rest))]
    exact utf8Valid_of_ascii rest (fun x hx => h x (List.mem_cons_of_mem b hx))

theorem hexDigitVal_le {b : Nat} (h : (hexDigitVal b).isSome = true) : b ≤ 127 := by
  by_contra hb
  have h1 : ¬ (48 ≤ b ∧ b ≤ 57) := by omega
  have h2 : ¬ (97 ≤ b ∧ b ≤ 102) := by omega
  have h3 : ¬ (65 ≤ b ∧ b ≤ 70) := by omega
  simp [hexDigitVal, h1, h2, h3] at h

theorem hexAccum_some : ∀ (l : List Nat) (acc : Nat),
    (∀ b ∈ l, (hexDigitVal b).isSome = true) →
    hexAccum acc l = some (l.foldl (fun a b => 16 * a + (hexDigitVal b).getD 0) acc)
  | [], _, _ => rfl
  | b :: r, acc, h => by
    obtain ⟨d, hd⟩ := Option.isSome_iff_exists.mp (h b (List.mem_cons_self b r))
    have ih := hexAccum_some r (16 * acc + d)
      (fun x hx => h x (List.mem_cons_of_mem b hx))
    simp [hexAccum, hd, ih]

theorem hexAccum_none : ∀ (u : List Nat) (c : Nat) (v : List Nat) (acc : Nat),
    hexDigitVal c = none → hexAccum acc (u ++ c :: v) = none
  | [], c, v, acc, h => by simp [hexAccum, h]
  | a :: u, c, v, acc, h => by
    cases ha : hexDigitVal a with
    | some d => simp [hexAccum, ha, hexAccum_none u c v (16 * acc + d) h]
    | none => simp [hexAccum, ha]

theorem parseLenField_ok (hx : List Nat) (hne : hx ≠ [])
    (hall : ∀ b ∈ hx, (hexDigitVal b).isSome = true) (hv : hexNat hx < 2 ^ 32) :
    parseLenField hx = .ok (hexNat hx) := by
  have hu : utf8Valid hx = true :=
    utf8Valid_of_ascii hx (fun b hb => hexDigitVal_le (hall b hb))
  cases hx with
  | nil => exact absurd rfl hne
  | cons b r =>
    have hb43 : ¬ b = 43 := by
      intro he
      have hb := hall b (List.mem_cons_self b r)
      rw [he] at hb
      simp [hexDigitVal] at hb
    have hacc := hexAccum_some (b :: r) 0 hall
    have hv2 : (b :: r).foldl (fun a b => 16 * a + (hexDigitVal b).getD 0) 0 < 2 ^ 32 := hv
    have hfr : fromStrRadix16u32 (b :: r) = some (hexNat (b :: r)) := by
      simp only [fromStrRadix16u32]
      rw [if_neg (fun hh => hb43 hh.1), if_neg hb43, hacc, Option.some_bind, if_pos hv2]
      rfl
    simp [parseLenField, hu, hfr]

theorem parseLenField_utf8 (bs : List Nat) (h : utf8Valid bs = false) :
    parseLenField bs = .err .utf8Error := by
  simp [parseLenField, h]

theorem parseLenField_nonhex (u : List Nat) (c : Nat) (v : List Nat)
    (hc : hexDigitVal c = none) (hnotsign : ¬ (u = [] ∧ c = 43))
    (hu : utf8Valid (u ++ c :: v) = true) :
    parseLenField (u ++ c :: v) = .err .parseIntError := by
  have hradix : fromStrRadix16u32 (u ++ c :: v) = none := by
    cases u with
    | nil =>
      have hc43 : ¬ c = 43 := fun he => hnotsign ⟨rfl, he⟩
      have hacc := hexAccum_none [] c v 0 hc
      simp at hacc
      simp [fromStrRadix16u32, hc43, hacc]
    | cons a u2 =>
      by_cases ha : a = 43
      · subst ha
        have hrest : ¬ (u2 ++ c :: v = []) := by simp
        have hacc := hexAccum_none u2 c v 0 hc
        simp [fromStrRadix16u32, hrest, hacc]
      · have hacc := hexAccum_none (a :: u2) c v 0 hc
        simp at hacc
        simp [fromStrRadix16u32, ha, hacc]
  simp [parseLenField, hu, hradix]

/-! Helper lemmas about the legacy decoder. -/

theorem svReadEntry_nil : svReadEntry [] = .sentinel := rfl

theorem svReadEntry_entry (p l4 rest : List Nat) (hp : (0 : Nat) ∉ p)
    (h4 : l4.length = 4) :
    svReadEntry (p ++ 0 :: (l4 ++ rest)) =
      .entry p (rest.take (leU32 l4)) (rest.drop (leU32 l4)) := by
  have hr := readUntil_no_delim_append 0 (l4 ++ rest) hp
  have hnlt : ¬ (l4 ++ rest).length < 4 := by
    simp [List.length_append, h4]
  have htake : (l4 ++ rest).take 4 = l4 := by
    rw [← h4]; exact List.take_left l4 rest
  have hdrop : (l4 ++ rest).drop 4 = rest := by
    rw [← h4]; exact List.drop_left l4 rest
  simp [svReadEntry, hr, hnlt, htake, hdrop]
  omega

theorem svReadEntry_eofBreak (p rest : List Nat) (hp : (0 : Nat) ∉ p)
    (hlen : rest.length < 4) :
    svReadEntry (p ++ 0 :: rest) = .eofBreak := by
  have hr := readUntil_no_delim_append 0 rest hp
  simp [svReadEntry, hr, hlen]

theorem parseSvLoop_nil (f : Nat) : parseSvLoop f [] = (0, []) := by
  cases f <;> rfl

/-! Helper lemmas about the chunked decoder. -/

theorem chunkReadEntry_nil (term : Nat) : chunkReadEntry term [] = .sentinel := by
  simp [chunkReadEntry, readUntil]

theorem chunkReadEntry_entry (term : Nat) (p hx pay : List Nat) (hp : term ∉ p)
    (hhx : hx ≠ []) (hall : ∀ b ∈ hx, (hexDigitVal b).isSome = true ∧ b ≠ term)
    (hv : hexNat hx < 2 ^ 32) :
    chunkReadEntry term (p ++ term :: (hx ++ term :: pay)) =
      .entry p (pay.take (hexNat hx)) (pay.drop (hexNat hx)) := by
  have hterm : term ∉ hx := fun hm => ((hall _ hm).2 rfl).elim
  have hr1 := readUntil_no_delim_append term (hx ++ term :: pay) hp
  have hr2 := readUntil_no_delim_append term pay hterm
  have hpl : parseLenField hx = .ok (hexNat hx) :=
    parseLenField_ok hx hhx (fun b hb => (hall b hb).1) hv
  simp [chunkReadEntry, hr1, hr2, hpl]

theorem parsePackedLoop_nil (f term : Nat) : parsePackedLoop f term [] = .ok 0 [] := by
  cases f with
  | zero => rfl
  | succ f => simp [parsePackedLoop, chunkReadEntry_nil]

/-! Helper lemmas about de-commenting (Stage A of the chunked decoder). -/

theorem readCommentedLoop_render :
    ∀ (lns : List (List Nat × List Nat)) (f : Nat),
      (∀ ln ∈ lns, goodLine ln) → (renderFile lns).length < f →
      readCommentedLoop f (renderFile lns) = .ok (fragsOf lns)
  | [], f, _, hf => by
    cases f with
    | zero => exact absurd hf (by simp [renderFile])
    | succ f0 => simp [renderFile, readCommentedLoop, readUntil, fragsOf, utf8Valid, utf8ValidFrom, utf8Start]
  | ln :: rest, f, h, hf => by
    obtain ⟨hm, hg, hgu⟩ := h ln (List.mem_cons_self ln rest)
    cases f with
    | zero => exact absurd hf (by omega)
    | succ f0 =>
      have hs : renderFile (ln :: rest) = ln.1 ++ ((ln.2 ++ [10]) ++ renderFile rest) := by
        simp [renderFile, renderLine]
      have hdrop2 : (renderFile (ln :: rest)).drop 2 = (ln.2 ++ [10]) ++ renderFile rest := by
        rw [hs, ← hm, List.drop_left]
      have hcons : (ln.2 ++ [10]) ++ renderFile rest = ln.2 ++ 10 :: renderFile rest := by
        simp
      have hru : readUntil 10 ((ln.2 ++ [10]) ++ renderFile rest) =
          (ln.2 ++ [10], renderFile rest) := by
        rw [hcons]
        exact readUntil_no_delim_append 10 (renderFile rest) hg
      have hlentot : (renderFile (ln :: rest)).length =
          ln.1.length + (ln.2.length + 1) + (renderFile rest).length := by
        simp [renderFile, renderLine]
        omega
      have hlen : (renderFile rest).length < f0 := by omega
      have ih := readCommentedLoop_render rest f0
        (fun x hx => h x (List.mem_cons_of_mem ln hx)) hlen
      simp only [readCommentedLoop]
      rw [hdrop2, hru]
      simp [hgu, ih, fragsOf]

theorem readCommentedFile_render (lns : List (List Nat × List Nat))
    (h : ∀ ln ∈ lns, goodLine ln) :
    readCommentedFile (renderFile lns) = .ok (fragsOf lns) :=
  readCommentedLoop_render lns ((renderFile lns).length + 1) h (Nat.lt_succ_self _)

/-! Helper lemmas about glob matching and the copy-mode classification. -/

theorem matchPathPat_four {q1 q2 q3 q4 : List GlobTok} {p : List String}
    (h : matchPathPat [q1, q2, q3, q4] p = true) :
    ∃ a b c d, p = [a, b, c, d] ∧ matchToks q4 d.toList = true := by
  rcases p with _ | ⟨a, _ | ⟨b, _ | ⟨c, _ | ⟨d, _ | ⟨e, tail⟩⟩⟩⟩⟩
  · simp [matchPathPat] at h
  · simp [matchPathPat] at h
  · simp [matchPathPat] at h
  · simp [matchPathPat] at h
  · refine ⟨a, b, c, d, rfl, ?_⟩
    simp [matchPathPat] at h
    exact h.2.2.2
  · simp [matchPathPat] at h

theorem fileNameOf_four (a b c d : String) : fileNameOf [a, b, c, d] = d := rfl

theorem classifyLuaFile_cand {acc : CopyAcc} {rel : List String}
    (h : isSvCandidate rel = true) :
    classifyLuaFile acc rel =
      { acc with assertOk := acc.assertOk && acc.sv.isNone, sv := some rel } := by
  simp only [isSvCandidate, Bool.and_eq_true, Bool.not_eq_true', decide_eq_true_eq] at h
  obtain ⟨⟨h1, h2⟩, h3⟩ := h
  simp [classifyLuaFile, h1, h2, h3]

theorem classifyLuaFile_noncand (acc : CopyAcc) {rel : List String}
    (h : isSvCandidate rel = false) :
    (classifyLuaFile acc rel).sv = acc.sv ∧
      (classifyLuaFile acc rel).assertOk = acc.assertOk := by
  by_cases h1 : matchPathPat loaderPat rel = true
  · simp [classifyLuaFile, h1]
  · have h1f : matchPathPat loaderPat rel = false := by simpa using h1
    by_cases h2 : matchPathPat chunkFilePat rel = true
    · by_cases h3 : fileNameOf rel = "gluapack.sv.lua"
      · exfalso
        simp [isSvCandidate, h1f, h2, h3] at h
      · by_cases h4 : endsWithStr ".sh.lua" (fileNameOf rel) = true
        · simp [classifyLuaFile, h1f, h2, h3, h4]
        · have h4f : endsWithStr ".sh.lua" (fileNameOf rel) = false := by simpa using h4
          by_cases h5 : endsWithStr ".cl.lua" (fileNameOf rel) = true
          · simp [classifyLuaFile, h1f, h2, h3, h4f, h5]
          · have h5f : endsWithStr ".cl.lua" (fileNameOf rel) = false := by simpa using h5
            simp [classifyLuaFile, h1f, h2, h3, h4f, h5f]
    · have h2f : matchPathPat chunkFilePat rel = false := by simpa using h2
      simp [classifyLuaFile, h1f, h2f]

theorem classify_fold_ok : ∀ (files : List (List String)) (acc : CopyAcc),
    acc.assertOk = true →
    (acc.sv.isSome = true → files.countP (fun r => isSvCandidate r) = 0) →
    (acc.sv.isSome = false → files.countP (fun r => isSvCandidate r) ≤ 1) →
    (files.foldl classifyLuaFile acc).assertOk = true
  | [], _, hok, _, _ => hok
  | rel :: rest, acc, hok, hsome, hnone => by
    rw [List.foldl_cons]
    by_cases hc : isSvCandidate rel = true
    · have hcnt : (rel :: rest).countP (fun r => isSvCandidate r) =
          rest.countP (fun r => isSvCandidate r) + 1 := by
        simp [List.countP_cons, hc]
      cases hsv : acc.sv with
      | some x =>
        have h0 := hsome (by simp [hsv])
        rw [hcnt] at h0
        exact absurd h0 (by omega)
      | none =>
        have hle := hnone (by simp [hsv])
        rw [hcnt] at hle
        have hrest0 : rest.countP (fun r => isSvCandidate r) = 0 := by omega
        rw [classifyLuaFile_cand hc]
        apply classify_fold_ok rest
        · simp [hok, hsv]
        · intro _
          exact hrest0
        · intro hfalse
          simp at hfalse
    · have hcf : isSvCandidate rel = false := by simpa using hc
      have hpair := classifyLuaFile_noncand acc hcf
      have hcnt : (rel :: rest).countP (fun r => isSvCandidate r) =
          rest.countP (fun r => isSvCandidate r) := by
        simp [List.countP_cons, hcf]
      apply classify_fold_ok rest
      · rw [hpair.2]
        exact hok
      · intro hs2
        rw [hpair.1] at hs2
        rw [← hcnt]
        exact hsome hs2
      · intro hs2
        rw [hpair.1] at hs2
        rw [← hcnt]
        exact hnone hs2

/-! Claim theorems. -/

/-- C1 counterexample: a legacy container truncated in the middle of a
declared 5-byte payload (only 2 bytes present) decodes successfully with
one entry whose written file is silently short, and a chunked superchunk
truncated in the middle of a declared 2-byte payload (only 1 byte
present) likewise decodes successfully; the claim says both decoders
fail with a fatal propagated error on such inputs. -/
theorem C1_counterexample :
    parseSvPackedFile [97, 0, 5, 0, 0, 0, 120, 121] = (1, [([97], [120, 121])]) ∧
    parsePackedBufferT TERMINATOR_HACK [97, 1, 50, 1, 120] = .ok 1 [([97], [120])] := by
  decide

/-- C1 amended: a byte source ending in the middle of an entry does not
make decoding fail.  The legacy decoder returns success with a silently
short output file when the source ends inside a declared payload, and
returns success with the entries so far when the source ends inside the
4-byte length field (the UnexpectedEof from read_exact is treated as end
of stream); the chunked decoder likewise writes a silently short file
and returns success when the superchunk ends inside a declared
payload. -/
theorem C1_amended :
    (∀ (p l4 pay : List Nat), (0 : Nat) ∉ p → l4.length = 4 →
      pay.length < leU32 l4 →
      parseSvPackedFile (p ++ 0 :: (l4 ++ pay)) = (1, [(p, pay)])) ∧
    (∀ (p rest : List Nat), (0 : Nat) ∉ p → rest.length < 4 →
      parseSvPackedFile (p ++ 0 :: rest) = (0, [])) ∧
    (∀ (term : Nat) (p hx pay : List Nat), term ∉ p → hx ≠ [] →
      (∀ b ∈ hx, (hexDigitVal b).isSome = true ∧ b ≠ term) →
      hexNat hx < 2 ^ 32 → pay.length < hexNat hx →
      parsePackedBufferT term (p ++ term :: (hx ++ term :: pay)) =
        .ok 1 [(p, pay)]) := by
  refine ⟨?_, ?_, ?_⟩
  · intro p l4 pay hp h4 hlt
    have hs := svReadEntry_entry p l4 pay hp h4
    rw [List.take_of_length_le (Nat.le_of_lt hlt),
      List.drop_eq_nil_of_le (Nat.le_of_lt hlt)] at hs
    unfold parseSvPackedFile
    simp [parseSvLoop, hs, parseSvLoop_nil]
  · intro p rest hp hlen
    have hs := svReadEntry_eofBreak p rest hp hlen
    unfold parseSvPackedFile
    simp [parseSvLoop, hs]
  · intro term p hx pay hp hhx hall hv hlt
    have hs := chunkReadEntry_entry term p hx pay hp hhx hall hv
    rw [List.take_of_length_le (Nat.le_of_lt hlt),
      List.drop_eq_nil_of_le (Nat.le_of_lt hlt)] at hs
    unfold parsePackedBufferT
    simp [parsePackedLoop, hs, parsePackedLoop_nil]

/-- C1 witness: the amended theorem applied at concrete truncated
containers. -/
theorem C1_amended_witness :
    parseSvPackedFile [98, 0, 3, 0, 0, 0, 1] = (1, [([98], [1])]) ∧
    parseSvPackedFile [98, 0, 9, 9] = (0, []) ∧
    parsePackedBufferT 1 [98, 1, 50, 1, 7] = .ok 1 [([98], [7])] := by
  refine ⟨?_, ?_, ?_⟩
  · have h := C1_amended.1 [98] [3, 0, 0, 0] [1] (by decide) (by decide) (by decide)
    simpa using h
  · have h := C1_amended.2.1 [98] [9, 9] (by decide) (by decide)
    simpa using h
  · have h := C1_amended.2.2 1 [98] [50] [7] (by decide) (by decide) (by decide)
      (by decide) (by decide)
    simpa using h

/-- C2 counterexample: with the legacy file found and exactly one
client-side chunk file (the end-to-end scenario of the spec), the
reported processed-container count is 4, not the claimed 3: the count
grows with the number of individual chunk files. -/
theorem C2_counterexample :
    unpackModel TERMINATOR_HACK (some [97, 0, 1, 0, 0, 0, 120])
      [[45, 45, 98, 1, 49, 1, 120]] [] = .ok 2 4 ∧
    ¬ unpackModel TERMINATOR_HACK (some [97, 0, 1, 0, 0, 0, 120])
      [[45, 45, 98, 1, 49, 1, 120]] [] = .ok 2 3 := by
  decide

/-- C2 amended: the reported processed-container count equals the number
of individual client-side plus shared chunk files, plus one when the
legacy packed file was found, plus two; in particular it grows with the
number of chunk files, and the end-to-end scenario with one legacy file
and one client-side chunk file reports 4. -/
theorem C2_amended (term : Nat) (sv : Option (List Nat)) (cl sh : List (List Nat))
    (n m : Nat) (h : unpackModel term sv cl sh = .ok n m) :
    m = cl.length + sh.length + (if sv.isSome then 1 else 0) + 2 := by
  unfold unpackModel at h
  rcases hcl : parsePackedFiles term cl with _ | e | ⟨nCl, ecl⟩ <;> rw [hcl] at h
  · simp at h
  · simp at h
  · rcases hsh : parsePackedFiles term sh with _ | e2 | ⟨nSh, esh⟩ <;> rw [hsh] at h
    · simp at h
    · simp at h
    · cases sv with
      | none =>
        simp only [UnpackOutcome.ok.injEq] at h
        obtain ⟨h1, h2⟩ := h
        simp [← h2]
      | some content =>
        simp only [UnpackOutcome.ok.injEq] at h
        obtain ⟨h1, h2⟩ := h
        simp [← h2]

/-- C2 witness: the amended count formula at a concrete run with no
legacy file and no chunk files. -/
theorem C2_amended_witness :
    unpackModel TERMINATOR_HACK none [] [] = .ok 0 2 ∧
    (2 : Nat) = ([] : List (List Nat)).length + ([] : List (List Nat)).length +
      (if (none : Option (List Nat)).isSome then 1 else 0) + 2 := by
  constructor
  · decide
  · exact C2_amended TERMINATOR_HACK none [] [] 0 2 (by decide)

/-- C3: a chunked superchunk holding only the terminator byte makes the
decoder panic (the slice len[0..len.len()-1] of the empty length field
is out of bounds) instead of returning zero entries and no error; the
legacy decoder on the single sentinel byte does return zero entries and
no error (through the UnexpectedEof break, since the path read returns
the lone terminator and is not empty). -/
theorem C3_code_behavior :
    parsePackedBufferT TERMINATOR_HACK [TERMINATOR_HACK] = .panicked ∧
    parseSvPackedFile [0] = (0, []) := by
  decide

/-- C4 counterexample: in no-copy mode a file named 001_gluapack_x.lua
under lua/gluapack/autorun/ is handed to the legacy decoder although it
does not bear the name gluapack.sv.lua, while a file that does bear the
exact name gluapack.sv.lua under lua/gluapack/a/ is not discovered at
all; the claim says discovery is exactly by that name. -/
theorem C4_counterexample :
    (noCopyDiscover [["lua", "gluapack", "autorun", "001_gluapack_x.lua"]]).1 =
      some ["lua", "gluapack", "autorun", "001_gluapack_x.lua"] ∧
    fileNameOf ["lua", "gluapack", "autorun", "001_gluapack_x.lua"] ≠
      "gluapack.sv.lua" ∧
    (noCopyDiscover [["lua", "gluapack", "a", "gluapack.sv.lua"]]).1 = none := by
  decide

/-- C4 amended: in no-copy mode the file handed to the legacy decoder is
the first match of the glob lua/gluapack/autorun/STAR_gluapack_STAR.lua,
a different identification rule from the exact-name check of copy mode;
such a file never bears the name gluapack.sv.lua, since that name does
not match the STAR_gluapack_STAR.lua component pattern. -/
theorem C4_amended (tree : List (List String)) (p : List String)
    (h : (noCopyDiscover tree).1 = some p) :
    matchPathPat noCopySvPat p = true ∧ fileNameOf p ≠ "gluapack.sv.lua" := by
  have hfind : tree.find? (fun q => matchPathPat noCopySvPat q) = some p := h
  have hp : matchPathPat noCopySvPat p = true := by
    have := List.find?_some hfind
    simpa using this
  refine ⟨hp, ?_⟩
  have hp2 : matchPathPat [litPat "lua", litPat "gluapack", litPat "autorun",
      loaderNamePat] p = true := hp
  obtain ⟨a, b, c, d, rfl, hd⟩ := matchPathPat_four hp2
  intro hname
  rw [fileNameOf_four] at hname
  rw [hname] at hd
  exact absurd hd (by decide)

/-- C4 witness: the amended theorem applied at a concrete tree whose
loader-glob match is discovered as the legacy file. -/
theorem C4_amended_witness :
    matchPathPat noCopySvPat ["lua", "gluapack", "autorun", "001_gluapack_x.lua"]
      = true ∧
    fileNameOf ["lua", "gluapack", "autorun", "001_gluapack_x.lua"] ≠
      "gluapack.sv.lua" :=
  C4_amended [["lua", "gluapack", "autorun", "001_gluapack_x.lua"]]
    ["lua", "gluapack", "autorun", "001_gluapack_x.lua"] (by decide)

/-- C5 counterexample: an entry whose path field is the malformed UTF-8
byte 0xFF decodes without any error and decoding continues to completion
(the path is decoded lossily), contradicting the claim that such an
entry causes a fatal propagated Utf8Error. -/
theorem C5_counterexample :
    utf8Valid [255] = false ∧
    parsePackedBufferT TERMINATOR_HACK [255, 1, 48, 1] = .ok 1 [([255], [])] := by
  decide

/-- C5 amended: in the chunked decoder the fatal Utf8Error arises from
malformed UTF-8 in the LENGTH field, which is propagated to the caller;
the path field is decoded with from_utf8_lossy, so an entry whose path
holds arbitrary bytes (valid UTF-8 or not) decodes without error and
decoding continues past it. -/
theorem C5_amended :
    (∀ (term : Nat) (p lf : List Nat), term ∉ p → term ∉ lf →
      utf8Valid lf = false →
      parsePackedBufferT term (p ++ term :: (lf ++ [term])) =
        .fail .utf8Error) ∧
    (∀ (term : Nat) (p : List Nat), term ∉ p → term ≠ 48 →
      parsePackedBufferT term (p ++ term :: [48, term]) = .ok 1 [(p, [])]) := by
  constructor
  · intro term p lf hp hlf hbad
    have hr1 := readUntil_no_delim_append term (lf ++ [term]) hp
    have hr2 : readUntil term (lf ++ [term]) = (lf ++ [term], []) := by
      have := readUntil_no_delim_append term ([] : List Nat) hlf
      simpa using this
    have hstep : chunkReadEntry term (p ++ term :: (lf ++ [term])) =
        .fail .utf8Error := by
      simp [chunkReadEntry, hr1, hr2, parseLenField_utf8 lf hbad]
    unfold parsePackedBufferT
    simp [parsePackedLoop, hstep]
  · intro term p hp h48
    have h48s : ¬ (48 : Nat) = term := fun he => h48 he.symm
    have hr1 := readUntil_no_delim_append term ([48, term]) hp
    have hr2 : readUntil term [48, term] = ([48, term], []) := by
      simp [readUntil, h48s]
    have hpl : parseLenField [48] = .ok 0 := by decide
    have hstep : chunkReadEntry term (p ++ term :: [48, term]) =
        .entry p [] [] := by
      simp [chunkReadEntry, hr1, hr2, hpl]
    unfold parsePackedBufferT
    simp [parsePackedLoop, hstep, parsePackedLoop_nil]

/-- C5 witness: the amended theorem applied at a concrete malformed
length field and at a concrete malformed path. -/
theorem C5_amended_witness :
    parsePackedBufferT 1 [250, 1, 254, 1] = .fail .utf8Error ∧
    parsePackedBufferT 1 [250, 1, 48, 1] = .ok 1 [([250], [])] := by
  constructor
  · have h := C5_amended.1 1 [250] [254] (by decide) (by decide) (by decide)
    simpa using h
  · have h := C5_amended.2 1 [250] (by decide) (by decide)
    simpa using h

/-- C6 counterexample: a chunk file holding one line whose payload
fragment is the byte 0xFF followed by the line feed is not valid UTF-8,
so Stage A fails with an InvalidData I/O error from read_line instead of
producing the concatenation of the payload fragments; the claim allows
arbitrary binary fragments. -/
theorem C6_counterexample :
    utf8Valid [255, 10] = false ∧
    superchunkOf [[45, 45, 255, 10]] = .err (.ioError .invalidData) := by
  decide

/-- C6 amended: for chunk files whose lines each carry a 2-byte marker
prefix and a payload fragment that contains no interior line feed and is
valid UTF-8 together with its terminating line feed (the condition
read_line imposes), Stage A de-commenting produces exactly the
concatenation of all payload fragments, in input-list order across files
and line order within each file. -/
theorem C6_amended : ∀ (files : List (List (List Nat × List Nat))),
    (∀ fl ∈ files, ∀ ln ∈ fl, goodLine ln) →
    superchunkOf (files.map renderFile) = .ok (allFrags files)
  | [], _ => rfl
  | fl :: fs, h => by
    have h1 := readCommentedFile_render fl (h fl (List.mem_cons_self fl fs))
    have h2 := C6_amended fs (fun x hx ln hln => h x (List.mem_cons_of_mem fl hx) ln hln)
    simp [superchunkOf, h1, h2, allFrags]

/-- C6 witness: the amended theorem applied at two concrete chunk files
of one line each. -/
theorem C6_amended_witness :
    superchunkOf ([[([45, 45], [97])], [([45, 45], [98, 99])]].map renderFile) =
      .ok (allFrags [[([45, 45], [97])], [([45, 45], [98, 99])]]) :=
  C6_amended [[([45, 45], [97])], [([45, 45], [98, 99])]] (by decide)

/-- C7 counterexample: two distinct symlinks at paths a and b resolving
to the same target t are both followed (the target is visited twice),
and the final visitation set holds the link paths a and b, not the
resolved target t; the claim says the set holds resolved targets and
that a target is visited at most once. -/
theorem C7_counterexample :
    visitEntries [] [⟨true, ["a"], ["t"]⟩, ⟨true, ["b"], ["t"]⟩] =
      ([["b"], ["a"]], [["t"], ["t"]], [["a"], ["b"]]) ∧
    ["t"] ∉ ([["b"], ["a"]] : List (List String)) := by
  decide

/-- C7 amended: the visitation set holds the symlinks own paths (the
link locations), and a symlink whose own path is already in the set is
skipped; consequently, within one pass the log of followed symlink paths
has no duplicates and never holds an initially visited path, while two
distinct symlinks resolving to the same target are each followed. -/
theorem C7_amended : ∀ (visited : List (List String)) (es : List FsEntry),
    (visitEntries visited es).2.2.Nodup ∧
      ∀ q ∈ (visitEntries visited es).2.2, q ∉ visited
  | visited, [] => by simp [visitEntries]
  | visited, e :: es => by
    by_cases hsym : e.isSymlink = true
    · by_cases hmem : e.path ∈ visited
      · have ih := C7_amended visited es
        have hv : (visitEntries visited (e :: es)).2.2 =
            (visitEntries visited es).2.2 := by
          simp [visitEntries, hsym, hmem]
        rw [hv]
        exact ih
      · have ih := C7_amended (e.path :: visited) es
        have hv : (visitEntries visited (e :: es)).2.2 =
            e.path :: (visitEntries (e.path :: visited) es).2.2 := by
          simp [visitEntries, hsym, hmem]
        rw [hv]
        constructor
        · rw [List.nodup_cons]
          refine ⟨?_, ih.1⟩
          intro hq
          exact (ih.2 _ hq) (List.mem_cons_self _ _)
        · intro q hq
          rcases List.mem_cons.mp hq with hq1 | hq2
          · rw [hq1]
            exact hmem
          · intro hqv
            exact (ih.2 q hq2) (List.mem_cons_of_mem _ hqv)
    · have hsf : e.isSymlink = false := by simpa using hsym
      have ih := C7_amended visited es
      have hv : (visitEntries visited (e :: es)).2.2 =
          (visitEntries visited es).2.2 := by
        simp [visitEntries, hsf]
      rw [hv]
      exact ih

/-- C7 witness: the amended theorem applied at a concrete entry list in
which the same symlink location occurs twice. -/
theorem C7_amended_witness :
    (visitEntries [] [⟨true, ["c"], ["u"]⟩, ⟨true, ["c"], ["u"]⟩]).2.2.Nodup :=
  (C7_amended [] [⟨true, ["c"], ["u"]⟩, ⟨true, ["c"], ["u"]⟩]).1

/-- C8 counterexample: the length field "+A" contains the
non-hexadecimal character plus, yet u32::from_str_radix accepts a
leading plus sign, so the field parses successfully to 10 instead of
yielding a ParseIntError as the claim states. -/
theorem C8_counterexample :
    hexDigitVal 43 = none ∧ parseLenField [43, 65] = .ok 10 := by
  decide

/-- C8 amended: a length field containing a non-hexadecimal character at
any position other than a single leading plus sign yields
UnpackingError::ParseIntError, and every hexadecimal ASCII digit string
whose value fits in 32 bits, upper or lower case, with or without
leading zeros, parses to its value. -/
theorem C8_amended :
    (∀ (u : List Nat) (c : Nat) (v : List Nat),
      hexDigitVal c = none → ¬ (u = [] ∧ c = 43) →
      utf8Valid (u ++ c :: v) = true →
      parseLenField (u ++ c :: v) = .err .parseIntError) ∧
    (∀ (bs : List Nat), bs ≠ [] → (∀ b ∈ bs, (hexDigitVal b).isSome = true) →
      hexNat bs < 2 ^ 32 → parseLenField bs = .ok (hexNat bs)) :=
  ⟨parseLenField_nonhex, parseLenField_ok⟩

/-- C8 witness: the amended theorem applied at the concrete fields "G"
(error), "0A" (value 10) and "ff" (value 255). -/
theorem C8_amended_witness :
    parseLenField [71] = .err .parseIntError ∧
    parseLenField [48, 65] = .ok 10 ∧
    parseLenField [102, 102] = .ok 255 := by
  refine ⟨?_, ?_, ?_⟩
  · have h := C8_amended.1 [] 71 [] (by decide) (by decide) (by decide)
    simpa using h
  · have h := C8_amended.2 [48, 65] (by decide) (by decide) (by decide)
    have h2 : hexNat [48, 65] = 10 := by decide
    rw [h2] at h
    exact h
  · have h := C8_amended.2 [102, 102] (by decide) (by decide) (by decide)
    have h2 : hexNat [102, 102] = 255 := by decide
    rw [h2] at h
    exact h

/-- C9 counterexample: a source tree whose walk meets chunk-glob files
named gluapack.sv.lua in two different packaging subdirectories records
two legacy-file candidates, and the debug_assert that the bucket is
still empty fails on the second; the claim says the assertion holds for
every source tree. -/
theorem C9_counterexample :
    (classifyLuaFiles [["gluapack", "a", "gluapack.sv.lua"],
      ["gluapack", "b", "gluapack.sv.lua"]]).assertOk = false := by
  decide

/-- C9 amended: the debug_assert holds exactly when the walk encounters
at most one chunk-glob match named gluapack.sv.lua; under that
hypothesis every recording finds the legacy-file bucket empty. -/
theorem C9_amended (files : List (List String))
    (h : files.countP (fun r => isSvCandidate r) ≤ 1) :
    (classifyLuaFiles files).assertOk = true :=
  classify_fold_ok files initCopyAcc rfl
    (fun hs => by simp [initCopyAcc] at hs) (fun _ => h)

/-- C9 witness: the amended theorem applied at a concrete walk with one
legacy candidate and one ordinary chunk file. -/
theorem C9_amended_witness :
    (classifyLuaFiles [["gluapack", "a", "gluapack.sv.lua"],
      ["gluapack", "b", "x.cl.lua"]]).assertOk = true :=
  C9_amended [["gluapack", "a", "gluapack.sv.lua"], ["gluapack", "b", "x.cl.lua"]]
    (by decide)

/-- C10 counterexample: on a superchunk that ends immediately after the
terminator of the path field, the length read yields zero bytes and
read_entry panics on the out-of-bounds slice len[0..len.len()-1], so the
chunked entry parser is not total. -/
theorem C10_counterexample :
    chunkReadEntry TERMINATOR_HACK [97, TERMINATOR_HACK] = .panicked := by
  decide

/-- C10 amended: read_entry of the chunked decoder panics exactly when
the input is nonempty and nothing remains after the path read (the
length read yields zero bytes, making the slice len[0..len.len()-1] out
of bounds); on every other input it returns a sentinel, an entry or an
error. -/
theorem C10_amended (term : Nat) (s : List Nat) :
    chunkReadEntry term s = .panicked ↔ s ≠ [] ∧ (readUntil term s).2 = [] := by
  by_cases hs : s = []
  · subst hs
    simp [chunkReadEntry, readUntil]
  · have h1 : ¬ (readUntil term s).1 = [] := by
      rw [readUntil_fst_nil_iff]
      exact hs
    by_cases h2 : (readUntil term s).2 = []
    · simp [chunkReadEntry, h1, hs, h2, readUntil]
    · have h3 : ¬ (readUntil term (readUntil term s).2).1 = [] := by
        rw [readUntil_fst_nil_iff]
        exact h2
      cases hpl : parseLenField (readUntil term (readUntil term s).2).1.dropLast with
      | ok v => simp [chunkReadEntry, h1, h3, hpl, hs, h2]
      | err e => simp [chunkReadEntry, h1, h3, hpl, hs, h2]

/-- C10 witness: the characterization applied at a concrete superchunk
with no terminator at all, which also panics. -/
theorem C10_amended_witness :
    chunkReadEntry TERMINATOR_HACK [97] = .panicked :=
  (C10_amended TERMINATOR_HACK [97]).mpr ⟨by decide, by decide⟩
